import Mathlib

/-!
Shallow embedding of `src/frontend/src/core/model/ids.ts` from the marimo
frontend, together with proofs of the specification's claims about it.

The TypeScript module holds one piece of mutable state, the module-level
`let counter = 0` used by `CellId.create`.  We embed it by explicit state
passing: each operation of the module takes the current counter value and
returns its result paired with the new counter value.  `CellId` and
`HTMLCellId` are branded strings (`TypedString`) in the source, so both are
plain `String` here.  JavaScript's `String.prototype.slice` is embedded from
the ECMAScript semantics, and the DOM call `element.closest(sel)` is embedded
as a walk up an explicit ancestor chain (the element itself first, then its
parent, and so on to the root).
-/

namespace Marimo

/-- The type of cell identifiers: a branded string in the source
(`TypedString<"CellId">`). -/
abbrev CellId := String

/-- The type of HTML element ids that represent a cell: a branded string in
the source (a template-literal string type prefixed with `cell-`). -/
abbrev HTMLCellId := String

/-- The initial value of the module-level counter (`let counter = 0`). -/
def initialCounter : Nat := 0

namespace CellId

/-- Embeds `CellId.create`:
`create() { const next = counter++; return next.toString() }`.
Returns the minted identifier (the decimal rendering of the old counter
value) together with the incremented counter. -/
def create (counter : Nat) : CellId × Nat :=
  (Nat.repr counter, counter + 1)

/-- Embeds `CellId.reset`: `reset() { counter = 0 }`. -/
def reset (_counter : Nat) : Unit × Nat :=
  ((), 0)

end CellId

/-- Runs `CellId.create` a given number of times from a given counter state,
collecting the minted identifiers in call order. -/
def createN : Nat → Nat → List CellId × Nat
  | 0, counter => ([], counter)
  | n + 1, counter =>
    let p := CellId.create counter
    let q := createN n p.2
    (p.1 :: q.1, q.2)

/-- Embeds ECMAScript `String.prototype.slice(start)` with the end argument
omitted: a negative start counts from the end (clamped at 0), a nonnegative
start is clamped at the length, and the substring from that position to the
end of the string is returned. -/
def jsSlice (s : String) (start : Int) : String :=
  let len : Int := s.length
  let first := if start < 0 then max (len + start) 0 else min start len
  String.mk (s.data.drop first.toNat)

namespace HTMLCellId

/-- Embeds `HTMLCellId.create`: the template literal prepending the fixed
prefix `cell-` to the cell identifier. -/
def create (cellId : CellId) : HTMLCellId :=
  "cell-" ++ cellId

/-- Embeds `HTMLCellId.parse`: `htmlCellId.slice(5)`. -/
def parse (htmlCellId : HTMLCellId) : CellId :=
  jsSlice htmlCellId 5

/-- The effect of `HTMLCellId.create` on the module state: its body never
reads or writes the module counter, so the state passes through unchanged. -/
def createS (cellId : CellId) (counter : Nat) : HTMLCellId × Nat :=
  (create cellId, counter)

/-- The effect of `HTMLCellId.parse` on the module state: its body never
reads or writes the module counter, so the state passes through unchanged. -/
def parseS (htmlCellId : HTMLCellId) (counter : Nat) : CellId × Nat :=
  (parse htmlCellId, counter)

end HTMLCellId

/-- A DOM element, restricted to the attributes that the selector in
`HTMLCellId.findElement` inspects: the tag name and the `id` attribute. -/
structure Element where
  tagName : String
  id : String
deriving DecidableEq, Repr

/-- Decides whether a character list begins with the five characters of the
literal `cell-`. -/
def startsWithCell : List Char → Bool
  | 'c' :: 'e' :: 'l' :: 'l' :: '-' :: _ => true
  | _ => false

/-- The CSS selector `div[id^="cell-"]` used by `HTMLCellId.findElement`: the
element must be a `div` and its id must begin with `cell-`. -/
def matchesCellSelector (e : Element) : Bool :=
  e.tagName == "div" && startsWithCell e.id.data

/-- Embeds `element.closest(sel)`: starting at the element itself and walking
up through its ancestors, returns the first element matching the selector,
or `none` when no ancestor (inclusive) matches.  An element's position in
the DOM is represented by its ancestor chain: the element itself first, then
its parent, and so on up to the root. -/
def closest (sel : Element → Bool) : List Element → Option Element
  | [] => none
  | e :: up => if sel e then some e else closest sel up

/-- Embeds `HTMLCellId.findElement`:
`element.closest('div[id^="cell-"]')`, applied to the element's ancestor
chain. -/
def findElement (chain : List Element) : Option Element :=
  closest matchesCellSelector chain

/-- Modelled from the spec words of claim C6: an element "whose identifier
matches the DOM-anchor format (id beginning with cell-)", with no constraint
on the element's tag name.  Used only to state the claim, for comparison
with `matchesCellSelector` from the source. -/
def specAnchorMatch (e : Element) : Bool :=
  startsWithCell e.id.data

/-- The decimal value of a list of digit characters (most significant
first). -/
def decodeDigits (l : List Char) : Nat :=
  l.foldl (fun a c => 10 * a + (c.toNat - 48)) 0

/-- Interprets a minted identifier as a natural number: the decimal value of
its characters. -/
def decimalValue (s : String) : Nat :=
  decodeDigits s.data

/-! ### Helper lemmas about the embedded string operations -/

/-- Slicing from index 5 removes the first five characters of the string. -/
lemma parse_eq_drop (s : String) :
    HTMLCellId.parse s = String.mk (s.data.drop 5) := by
  unfold HTMLCellId.parse jsSlice
  have h5 : ¬ ((5 : Int) < 0) := by decide
  simp only [h5, if_false]
  congr 1
  have hs : s.length = s.data.length := rfl
  rcases le_or_lt 5 s.data.length with h | h
  · have hm : min (5 : Int) s.length = 5 := by
      rw [hs]; omega
    rw [hm]
    rfl
  · have hm : min (5 : Int) s.length = s.length := by
      rw [hs]; omega
    rw [hm, hs]
    have h1 : List.drop s.data.length s.data = [] :=
      List.drop_eq_nil_of_le (Nat.le_refl _)
    have h2 : List.drop 5 s.data = [] :=
      List.drop_eq_nil_of_le (by omega)
    simp [h1, h2]

/-- The characters of a derived DOM anchor are the five characters of the
prefix followed by the characters of the cell identifier. -/
lemma create_data (c : CellId) :
    (HTMLCellId.create c).data = 'c' :: 'e' :: 'l' :: 'l' :: '-' :: c.data := by
  show ("cell-" ++ c).data = _
  rw [String.data_append]
  rfl

/-- Parsing a freshly derived DOM anchor recovers the cell identifier. -/
lemma parse_create (c : CellId) :
    HTMLCellId.parse (HTMLCellId.create c) = c := by
  rw [parse_eq_drop, create_data]
  rfl

/-! ### Injectivity of the decimal rendering used by `CellId.create` -/

/-- The decimal value of each digit character produced by `Nat.digitChar`. -/
lemma digitChar_val : ∀ d, d < 10 → (Nat.digitChar d).toNat - 48 = d := by
  decide

/-- The accumulator of `Nat.toDigitsCore` is appended on the right. -/
lemma toDigitsCore_append (fuel : Nat) : ∀ (n : Nat) (ds : List Char),
    Nat.toDigitsCore 10 fuel n ds = Nat.toDigitsCore 10 fuel n [] ++ ds := by
  induction fuel with
  | zero => intro n ds; simp [Nat.toDigitsCore]
  | succ fuel ih =>
    intro n ds
    simp only [Nat.toDigitsCore]
    by_cases h : n / 10 = 0
    · simp [h]
    · simp only [h, if_false]
      rw [ih (n / 10) (Nat.digitChar (n % 10) :: ds),
        ih (n / 10) [Nat.digitChar (n % 10)]]
      simp

/-- As long as the fuel exceeds the number being rendered, `Nat.toDigitsCore`
does not depend on the fuel. -/
lemma toDigitsCore_fuel (n : Nat) : ∀ (f₁ f₂ : Nat) (ds : List Char),
    n < f₁ → n < f₂ →
    Nat.toDigitsCore 10 f₁ n ds = Nat.toDigitsCore 10 f₂ n ds := by
  induction n using Nat.strong_induction_on with
  | _ n ih =>
    intro f₁ f₂ ds h₁ h₂
    obtain ⟨a, rfl⟩ : ∃ a, f₁ = a + 1 := ⟨f₁ - 1, by omega⟩
    obtain ⟨b, rfl⟩ : ∃ b, f₂ = b + 1 := ⟨f₂ - 1, by omega⟩
    simp only [Nat.toDigitsCore]
    by_cases h : n / 10 = 0
    · simp [h]
    · simp only [h, if_false]
      exact ih (n / 10) (by omega) a b _ (by omega) (by omega)

/-- Reading the digits produced by `Nat.toDigits` back as a decimal number
recovers the original number. -/
lemma decodeDigits_toDigits (n : Nat) :
    decodeDigits (Nat.toDigits 10 n) = n := by
  induction n using Nat.strong_induction_on with
  | _ n ih =>
    rw [Nat.toDigits]
    simp only [Nat.toDigitsCore]
    by_cases h : n / 10 = 0
    · simp only [h, if_true]
      have hd : (Nat.digitChar (n % 10)).toNat - 48 = n % 10 :=
        digitChar_val (n % 10) (by omega)
      simp [decodeDigits, hd]
      omega
    · simp only [h, if_false]
      rw [toDigitsCore_append,
        toDigitsCore_fuel (n / 10) n (n / 10 + 1) [] (by omega) (by omega)]
      have hih := ih (n / 10) (by omega)
      have hd : (Nat.digitChar (n % 10)).toNat - 48 = n % 10 :=
        digitChar_val (n % 10) (by omega)
      rw [Nat.toDigits] at hih
      simp only [decodeDigits] at hih ⊢
      rw [List.foldl_append, hih]
      simp only [List.foldl_cons, List.foldl_nil, hd]
      omega

/-- Interpreting the decimal rendering of a number recovers the number. -/
lemma decimalValue_repr (n : Nat) : decimalValue (Nat.repr n) = n :=
  decodeDigits_toDigits n

/-- The decimal rendering used by `CellId.create` is injective. -/
lemma repr_injective : Function.Injective Nat.repr := by
  intro a b h
  have h2 := congrArg decimalValue h
  rwa [decimalValue_repr, decimalValue_repr] at h2

/-! ### Characterization of repeated `create` calls -/

/-- The identifiers minted by n consecutive `create` calls from counter
state c are the decimal renderings of c, c+1, ..., c+n-1, in order. -/
lemma createN_fst (n : Nat) : ∀ c : Nat,
    (createN n c).1 = (List.range n).map (fun i => Nat.repr (c + i)) := by
  induction n with
  | zero => intro c; simp [createN]
  | succ n ih =>
    intro c
    simp only [createN, CellId.create]
    rw [ih (c + 1), List.range_succ_eq_map, List.map_cons, List.map_map]
    congr 1
    refine List.map_congr_left fun i _ => ?_
    show Nat.repr (c + 1 + i) = Nat.repr (c + Nat.succ i)
    congr 1
    omega

/-- After n consecutive `create` calls the counter has advanced by n. -/
lemma createN_snd (n : Nat) : ∀ c : Nat, (createN n c).2 = c + n := by
  induction n with
  | zero => intro c; simp [createN]
  | succ n ih =>
    intro c
    simp only [createN, CellId.create]
    rw [ih (c + 1)]
    omega

/-- The identifier at position idx among n consecutive `create` calls from
counter state c is the decimal rendering of c + idx. -/
lemma createN_get (n c idx : Nat) (h : idx < ((createN n c).1).length) :
    ((createN n c).1).get ⟨idx, h⟩ = Nat.repr (c + idx) := by
  simp only [List.get_eq_getElem]
  rw [List.getElem_of_eq (createN_fst n c) h]
  simp

/-! ### Claims -/

/-- C1: for every natural number N, a sequence of N calls to
`CellId.create()` performed after a `CellId.reset()` (with no intervening
reset) returns N pairwise-distinct identifiers. -/
theorem cellId_create_pairwise_distinct (N c : Nat) :
    ((createN N (CellId.reset c).2).1).Nodup := by
  rw [show (CellId.reset c).2 = 0 from rfl, createN_fst]
  refine List.Nodup.map ?_ (List.nodup_range N)
  intro a b h
  have h2 := repr_injective h
  omega

/-- C2: round-trip law in both directions: parsing a derived DOM anchor
recovers the cell identifier, and deriving an anchor from the parse of any
well-formed anchor (the prefix `cell-` followed by a cell identifier)
reproduces the anchor. -/
theorem htmlCellId_roundTrip (c : CellId) (x : HTMLCellId)
    (h : ∃ c0 : CellId, x = HTMLCellId.create c0) :
    HTMLCellId.parse (HTMLCellId.create c) = c ∧
    HTMLCellId.create (HTMLCellId.parse x) = x := by
  obtain ⟨c0, rfl⟩ := h
  exact ⟨parse_create c, by rw [parse_create]⟩

/-- Witness for C2 at the concrete identifier "7" and anchor "cell-7". -/
theorem htmlCellId_roundTrip_witness :
    HTMLCellId.parse (HTMLCellId.create "7") = "7" ∧
    HTMLCellId.create (HTMLCellId.parse "cell-7") = "cell-7" :=
  htmlCellId_roundTrip "7" "cell-7" ⟨"7", rfl⟩

/-- C3: for every natural number N, calling `CellId.reset()` and then
`CellId.create()` N times yields exactly the same identifiers (and final
counter) as a fresh, never-used registry calling `CellId.create()` N
times. -/
theorem reset_then_create_eq_fresh (N c : Nat) :
    createN N (CellId.reset c).2 = createN N initialCounter := rfl

/-- C4: a derived DOM anchor is exactly the concatenation of the fixed
prefix `cell-` and the cell identifier: it begins with the five characters
of `cell-` and contains the identifier as its exact suffix; in particular
the anchor of "0" is "cell-0" and parsing "cell-0" yields "0". -/
theorem htmlCellId_create_format (c : CellId) :
    (HTMLCellId.create c).data = "cell-".data ++ c.data ∧
    (HTMLCellId.create c).data.take 5 = "cell-".data ∧
    (HTMLCellId.create c).data.drop 5 = c.data ∧
    HTMLCellId.create "0" = "cell-0" ∧
    HTMLCellId.parse "cell-0" = "0" := by
  refine ⟨?_, ?_, ?_, rfl, by decide⟩
  · rw [create_data]; rfl
  · rw [create_data]; rfl
  · rw [create_data]; rfl

/-- C5: starting from the reset state, three successive calls to
`CellId.create()` return the identifiers "0", "1" and "2" in that order. -/
theorem create_three_from_reset (c : Nat) :
    (createN 3 (CellId.reset c).2).1 = ["0", "1", "2"] := by
  show (createN 3 0).1 = ["0", "1", "2"]
  decide

/-- C9: each call to `CellId.create` advances the module counter by exactly
one, while `HTMLCellId.create` and `HTMLCellId.parse` leave the counter
unchanged and return values independent of it. -/
theorem create_advances_counter_html_pure (c x : CellId) (s t : Nat) :
    (CellId.create s).2 = s + 1 ∧
    (HTMLCellId.createS c s).2 = s ∧
    (HTMLCellId.parseS x s).2 = s ∧
    (HTMLCellId.createS c s).1 = (HTMLCellId.createS c t).1 ∧
    (HTMLCellId.parseS x s).1 = (HTMLCellId.parseS x t).1 :=
  ⟨rfl, rfl, rfl, rfl, rfl⟩

/-- C10: `HTMLCellId.parse` is total on arbitrary strings: it returns the
input with its first five characters removed, and the empty string when the
input has five or fewer characters; malformed input is not rejected. -/
theorem parse_total_on_strings (s : String) :
    HTMLCellId.parse s = String.mk (s.data.drop 5) ∧
    (s.length ≤ 5 → HTMLCellId.parse s = "") := by
  refine ⟨parse_eq_drop s, fun h => ?_⟩
  rw [parse_eq_drop]
  have h2 : s.data.drop 5 = [] := List.drop_eq_nil_of_le h
  rw [h2]

/-- Witness for C10 at the concrete four-character string "cell". -/
theorem parse_total_on_strings_witness :
    HTMLCellId.parse "cell" = String.mk (("cell" : String).data.drop 5) ∧
    HTMLCellId.parse "cell" = "" :=
  ⟨(parse_total_on_strings "cell").1, (parse_total_on_strings "cell").2 (by decide)⟩

/-- Counterexample to C6 as stated: the element itself has an id beginning
with cell-, so it matches the DOM-anchor format of the claim, yet
`findElement` returns none instead of that element, because the selector in
the source additionally requires a div tag and the element is a span. -/
theorem findElement_counterexample :
    specAnchorMatch (Element.mk "span" "cell-1") = true ∧
    Element.mk "span" "cell-1" ∈ [Element.mk "span" "cell-1"] ∧
    findElement [Element.mk "span" "cell-1"] = none :=
  ⟨by decide, by decide, by decide⟩

/-- C6 amended: for every element in the UI tree, `findElement` returns the
nearest ancestor (inclusive of the element itself) that is a div element
whose id begins with cell-, whenever such an ancestor exists. -/
theorem findElement_nearest_div_anchor :
    ∀ chain : List Element, (∃ e ∈ chain, matchesCellSelector e = true) →
    ∃ i, ∃ hi : i < chain.length,
      findElement chain = some (chain.get ⟨i, hi⟩) ∧
      matchesCellSelector (chain.get ⟨i, hi⟩) = true ∧
      ∀ j, ∀ hj : j < i,
        matchesCellSelector (chain.get ⟨j, Nat.lt_trans hj hi⟩) = false := by
  intro chain
  induction chain with
  | nil =>
    rintro ⟨e, he, hm⟩
    simp at he
  | cons a up ih =>
    intro h
    by_cases ha : matchesCellSelector a = true
    · refine ⟨0, Nat.succ_pos _, ?_, ha, ?_⟩
      · simp [findElement, closest, ha]
      · intro j hj
        exact absurd hj (Nat.not_lt_zero j)
    · have h2 : ∃ e ∈ up, matchesCellSelector e = true := by
        obtain ⟨e, he, hm⟩ := h
        rcases List.mem_cons.mp he with rfl | he2
        · exact absurd hm ha
        · exact ⟨e, he2, hm⟩
      obtain ⟨i, hi, hfind, hm, hbefore⟩ := ih h2
      have hmf : matchesCellSelector a = false := by
        simpa using ha
      refine ⟨i + 1, Nat.succ_lt_succ hi, ?_, ?_, ?_⟩
      · have hstep : findElement (a :: up) = findElement up := by
          simp [findElement, closest, hmf]
        rw [hstep, hfind, List.get_cons_succ]
      · rw [List.get_cons_succ]
        exact hm
      · intro j hj
        cases j with
        | zero => exact hmf
        | succ j =>
          rw [List.get_cons_succ]
          exact hbefore j (Nat.lt_of_succ_lt_succ hj)

/-- A concrete ancestor chain: an element nested three levels inside a div
whose id is cell-2, with no closer matching ancestor. -/
def sampleChain : List Element :=
  [Element.mk "span" "x", Element.mk "p" "y",
    Element.mk "em" "z", Element.mk "div" "cell-2"]

/-- Witness for the amended C6 on the concrete chain `sampleChain`. -/
theorem findElement_nearest_div_anchor_witness :
    ∃ i, ∃ hi : i < sampleChain.length,
      findElement sampleChain = some (sampleChain.get ⟨i, hi⟩) ∧
      matchesCellSelector (sampleChain.get ⟨i, hi⟩) = true ∧
      ∀ j, ∀ hj : j < i,
        matchesCellSelector (sampleChain.get ⟨j, Nat.lt_trans hj hi⟩) = false :=
  findElement_nearest_div_anchor sampleChain
    ⟨Element.mk "div" "cell-2", by decide, by decide⟩

/-- C7: for every element with no ancestor (inclusive of itself) whose id
begins with cell-, `findElement` returns the explicit absence value none
rather than failing. -/
theorem findElement_none_of_no_anchor :
    ∀ chain : List Element, (∀ e ∈ chain, specAnchorMatch e = false) →
    findElement chain = none := by
  intro chain
  induction chain with
  | nil => intro h; rfl
  | cons a up ih =>
    intro h
    have h0 := h a (List.mem_cons_self a up)
    simp only [specAnchorMatch] at h0
    have ha : matchesCellSelector a = false := by
      simp [matchesCellSelector, h0]
    have hrest := ih fun e he => h e (List.mem_cons_of_mem a he)
    simp only [findElement] at hrest
    simp [findElement, closest, ha, hrest]

/-- Witness for C7 on a chain whose elements have no cell- id, one of them
even being a div. -/
theorem findElement_none_of_no_anchor_witness :
    findElement [Element.mk "div" "foo", Element.mk "span" "bar"] = none :=
  findElement_none_of_no_anchor _ (by decide)

/-- C8: between two resets, the identifiers returned by successive
`CellId.create` calls are strictly increasing when interpreted as natural
numbers. -/
theorem create_sequence_monotonic (N c i j : Nat) (hij : i < j)
    (hj : j < ((createN N (CellId.reset c).2).1).length) :
    decimalValue (((createN N (CellId.reset c).2).1).get ⟨i, Nat.lt_trans hij hj⟩)
      < decimalValue (((createN N (CellId.reset c).2).1).get ⟨j, hj⟩) := by
  rw [createN_get, createN_get, decimalValue_repr, decimalValue_repr]
  omega

/-- Witness for C8: among three creates after a reset, the first identifier
is numerically smaller than the third. -/
theorem create_sequence_monotonic_witness :
    decimalValue (((createN 3 (CellId.reset 5).2).1).get ⟨0, by decide⟩)
      < decimalValue (((createN 3 (CellId.reset 5).2).1).get ⟨2, by decide⟩) :=
  create_sequence_monotonic 3 5 0 2 (by decide) (by decide)

end Marimo
